import Mathlib

/-!
# quantonganh/todo: task lifecycle rules and task store

A shallow embedding of the Go packages `todo` (task.go, error.go),
`todo/http` (http/task.go) and `todo/postgres` (postgres/task.go).

* Go `error` results become `Except GoError _`; a handler or a service method is a
  function from the store state to a result and the next store state.
* `time.Time` is an instant on an integer time line (`Time := Int`); `t.After(u)` is `u < t`.
* `time.Now()` is an explicit argument.
* The `TaskService` interface is a record of functions over an arbitrary state type, so the
  handlers are stated for every implementation; `postgres.NewTaskService` is the concrete one.
* Request binding (`c.BindUri`, the JSON syntax of the body) is outside the model: a handler
  receives the decoded request struct. The `binding:"required"` tag of
  `AddTaskRequest.Description` is kept, as the check `ShouldBindJSON` runs on the decoded struct.
* A database statement always executes; connectivity failures are not modelled for the
  concrete store (the abstract `TaskService` may fail in any way).
-/

namespace todo

/-! ## task.go -/

/-- Go `type status string`. -/
abbrev status := String

/-- An instant of `time.Time`. -/
abbrev Time := Int

abbrev StatusNew : status := "new"
abbrev StatusInProgress : status := "in-progress"
abbrev StatusCompleted : status := "completed"
abbrev StatusOverdue : status := "overdue"

/-- Go `type Task struct`. -/
structure Task where
  ID : Int
  Description : String
  Status : status
  DueDate : Option Time
  ParentID : Option Int
  SubTasks : List Task

/-- Go `type AddTaskRequest struct`. -/
structure AddTaskRequest where
  Description : String
  DueDate : Option Time
  ParentID : Option Int
deriving DecidableEq, Repr

/-- Go `type EditTaskRequest struct`: every field is a pointer, `none` is the nil pointer. -/
structure EditTaskRequest where
  Description : Option String
  Status : Option status
  DueDate : Option Time
deriving DecidableEq, Repr

/-- Go `var availableStatuses = map[status]struct{}{...}`, as the list of its keys. -/
def availableStatuses : List status :=
  [StatusNew, StatusInProgress, StatusCompleted, StatusOverdue]

/-- Go `func (s status) IsValid() bool`: membership in `availableStatuses`. -/
def IsValid (s : status) : Bool :=
  availableStatuses.contains s

/-! ## error.go -/

abbrev ErrInvalid : String := "invalid"
abbrev ErrNotFound : String := "not_found"
abbrev ErrConflict : String := "conflict"

/-- The message of `ErrTaskNotFound = errors.New("task not found")`. -/
abbrev ErrTaskNotFound : String := "task not found"

/-- Go `type Error struct`; `Err` holds the message of the wrapped error, if any. -/
structure Error where
  Code : String
  Message : String
  Err : Option String
deriving DecidableEq, Repr

/-- A value of the Go interface `error`: a `*todo.Error`, or any other error
(a validator error, a `fmt.Errorf` wrapper) with its message. -/
inductive GoError where
  | app (e : Error)
  | other (msg : String)
deriving DecidableEq, Repr

/-- Go `type TaskService interface`, over a store state `σ`. -/
structure TaskService (σ : Type) where
  Create : AddTaskRequest → σ → Except GoError Unit × σ
  GetByID : Int → σ → Except GoError Task × σ
  UpdateByID : Int → Task → σ → Except GoError Unit × σ
  List : σ → Except GoError (List Task) × σ

/-- One call of a `TaskService` method, with its arguments. -/
inductive Call where
  | Create (req : AddTaskRequest)
  | GetByID (id : Int)
  | UpdateByID (id : Int) (task : Task)
  | List

/-- A service that behaves as `svc` and appends every method call to a log. -/
def traced {σ : Type} (svc : TaskService σ) : TaskService (σ × List Call) where
  Create req st := ((svc.Create req st.1).1, ((svc.Create req st.1).2, st.2 ++ [Call.Create req]))
  GetByID id st := ((svc.GetByID id st.1).1, ((svc.GetByID id st.1).2, st.2 ++ [Call.GetByID id]))
  UpdateByID id task st :=
    ((svc.UpdateByID id task st.1).1,
      ((svc.UpdateByID id task st.1).2, st.2 ++ [Call.UpdateByID id task]))
  List st := ((svc.List st.1).1, ((svc.List st.1).2, st.2 ++ [Call.List]))

/-! ## JSON bodies of `updateTaskHandler` -/

/-- A JSON value of the bodies that `json.Marshal(req)` produces for an `EditTaskRequest`:
a string, or the RFC 3339 string of an instant (kept as the instant: formatting and parsing
a `time.Time` give the same instant back). -/
inductive JSONValue where
  | string (s : String)
  | time (t : Time)
deriving DecidableEq, Repr

/-- A JSON object: its members in order. -/
abbrev JSONObject := List (String × JSONValue)

/-- Go `json.Marshal(req)` for `req : EditTaskRequest`: the tags are
`description,omitempty`, `status,omitempty`, `due_date,omitempty`; on a pointer field
`omitempty` leaves out the nil pointer only. -/
def marshalEditTaskRequest (req : EditTaskRequest) : JSONObject :=
  (match req.Description with
    | some d => [("description", JSONValue.string d)]
    | none => [])
  ++ (match req.Status with
    | some s => [("status", JSONValue.string s)]
    | none => [])
  ++ (match req.DueDate with
    | some t => [("due_date", JSONValue.time t)]
    | none => [])

/-- One member of a JSON object decoded onto a `Task`, by the `json` tags of the struct
(`id`, `description`, `status`, `due_date`, `parent_id`, `sub_tasks`); a member with another
name is skipped, a value of the wrong type is a decoding error. -/
def decodeMember (tt : Task) (kv : String × JSONValue) : Except GoError Task :=
  if kv.1 = "description" then
    match kv.2 with
    | JSONValue.string s => .ok { tt with Description := s }
    | JSONValue.time _ => .error (GoError.other "failed to decode: description")
  else if kv.1 = "status" then
    match kv.2 with
    | JSONValue.string s => .ok { tt with Status := s }
    | JSONValue.time _ => .error (GoError.other "failed to decode: status")
  else if kv.1 = "due_date" then
    match kv.2 with
    | JSONValue.time t => .ok { tt with DueDate := some t }
    | JSONValue.string _ => .error (GoError.other "failed to decode: due_date")
  else if kv.1 = "id" ∨ kv.1 = "parent_id" ∨ kv.1 = "sub_tasks" then
    .error (GoError.other "failed to decode: type mismatch")
  else .ok tt

/-- Go `json.NewDecoder(bytes.NewReader(body)).Decode(&tt)`: the members of the body are
decoded onto the existing task in order. -/
def decodeTask : JSONObject → Task → Except GoError Task
  | [], tt => .ok tt
  | kv :: rest, tt =>
    match decodeMember tt kv with
    | .ok tt1 => decodeTask rest tt1
    | .error e => .error e

namespace http

/-! ## http/task.go -/

/-- The `binding:"required"` check that `c.ShouldBindJSON(&req)` runs on an `AddTaskRequest`:
`Description` must not be the zero value. -/
def ShouldBindJSON (req : AddTaskRequest) : Except GoError AddTaskRequest :=
  if req.Description = "" then
    .error (GoError.other "Key: AddTaskRequest.Description Error: failed on the required tag")
  else .ok req

/-- Go `func (s *Server) createTaskHandler()`; `today` is the reading of `time.Now()`. -/
def createTaskHandler {σ : Type} (s : TaskService σ) (today : Time) (body : AddTaskRequest)
    (st : σ) : Except GoError AddTaskRequest × σ :=
  match ShouldBindJSON body with
  | .error err => (.error err, st)
  | .ok req =>
    match req.DueDate with
    | some due =>
      -- today.After(*req.DueDate)
      if due < today then
        (.error (GoError.app
          { Code := ErrInvalid, Message := "due_date must be in the future", Err := none }), st)
      else
        match s.Create req st with
        | (.error err, st1) => (.error err, st1)
        | (.ok _, st1) => (.ok req, st1)
    | none =>
      match s.Create req st with
      | (.error err, st1) => (.error err, st1)
      | (.ok _, st1) => (.ok req, st1)

/-- Go `func (s *Server) areAllSubtasksCompleted(subtasks []todo.Task) bool`. -/
def areAllSubtasksCompleted : List Task → Bool
  | [] => true
  | t :: rest => if t.Status ≠ StatusCompleted then false else areAllSubtasksCompleted rest

/-- Go `func (s *Server) updateTaskHandler()`; `id` is `param.ID`. -/
def updateTaskHandler {σ : Type} (s : TaskService σ) (id : Int) (req : EditTaskRequest)
    (st : σ) : Except GoError Task × σ :=
  if req.Status.any (fun x => !IsValid x) then
    (.error (GoError.app
      { Code := ErrInvalid
        Message := "status must be one of: new, in-progress, completed, overdue"
        Err := none }), st)
  else
    let body := marshalEditTaskRequest req
    match s.GetByID id st with
    | (.error err, st1) => (.error err, st1)
    | (.ok tt, st1) =>
      if req.Status = some StatusCompleted ∧ tt.ParentID = none
          ∧ areAllSubtasksCompleted tt.SubTasks = false then
        (.error (GoError.app
          { Code := ErrInvalid, Message := "all subtasks must be completed first", Err := none }),
          st1)
      else
        match decodeTask body tt with
        | .error err => (.error err, st1)
        | .ok tt1 =>
          match s.UpdateByID id tt1 st1 with
          | (.error err, st2) => (.error err, st2)
          | (.ok _, st2) => (.ok tt1, st2)

/-- Go `func (s *Server) getTaskHandler()`. -/
def getTaskHandler {σ : Type} (s : TaskService σ) (id : Int) (st : σ) :
    Except GoError Task × σ :=
  s.GetByID id st

/-- Go `func (s *Server) listTasksHandler()`. -/
def listTasksHandler {σ : Type} (s : TaskService σ) (st : σ) :
    Except GoError (List Task) × σ :=
  s.List st

end http

namespace postgres

/-! ## postgres/task.go -/

/-- Modelled from the spec: a row of the table `task`, whose schema (db/migrations) is not
part of the sources. The columns are the ones the queries of postgres/task.go name; per the
spec `id` is unique and store-assigned, `status` defaults to `new` on creation and
`parent_id` references an existing task. -/
structure Row where
  id : Int
  description : String
  status : status
  due_date : Option Time
  parent_id : Option Int
deriving DecidableEq, Repr

/-- Modelled from the spec: the database behind `taskService.DB`: the rows of the table
`task`, in a fixed order, and the next value of the sequence that assigns `id`. A statement
changes the rows it names and no other: the spec describes no trigger, and none is modelled. -/
structure DB where
  task : List Row
  nextID : Int
deriving DecidableEq, Repr

abbrev ErrMsgParentIDInvalid (parentID : Int) : String :=
  "parent_id=" ++ toString parentID ++ " is not present in table"

/-- A row of `task` as a `todo.Task` without nested subtasks. -/
def rowTask (r : Row) : Task :=
  { ID := r.id, Description := r.description, Status := r.status, DueDate := r.due_date,
    ParentID := r.parent_id, SubTasks := [] }

/-- Modelled from the spec: the SQL function `subtasks(id)` of db/migrations, which the
queries of `GetByID` and `List` select as `sub_tasks`: the tasks whose `parent_id` equals
`id`, one level of nesting. -/
def subtasks (db : DB) (id : Int) : List Task :=
  (db.task.filter (fun r => r.parent_id = some id)).map rowTask

/-- The columns `id, description, status, due_date, subtasks(id) AS sub_tasks` of a row,
scanned into a `todo.Task`; `parent_id` is not selected, so `ParentID` stays nil. -/
def selectTask (db : DB) (r : Row) : Task :=
  { ID := r.id, Description := r.description, Status := r.status, DueDate := r.due_date,
    ParentID := none, SubTasks := subtasks db r.id }

/-- Go `func (ts *taskService) Create`: `INSERT INTO task (description, due_date, parent_id)`;
an integrity violation (a `parent_id` that is the id of no task) is the `invalid` error. -/
def Create (task : AddTaskRequest) (db : DB) : Except GoError Unit × DB :=
  let inserted : DB :=
    { task := db.task ++ [{ id := db.nextID, description := task.Description,
                            status := StatusNew, due_date := task.DueDate,
                            parent_id := task.ParentID }]
      nextID := db.nextID + 1 }
  match task.ParentID with
  | none => (.ok (), inserted)
  | some parentID =>
    if db.task.any (fun r => r.id = parentID) then (.ok (), inserted)
    else
      (.error (GoError.app
        { Code := ErrInvalid, Message := ErrMsgParentIDInvalid parentID, Err := none }), db)

/-- Go `func (ts *taskService) GetByID`: `SELECT ... FROM task WHERE id = ?` through
`QueryOneContext`, which fails with `pg.ErrNoRows` on no row (the `not_found` error) and with
`pg.ErrMultiRows` on more than one. -/
def GetByID (id : Int) (db : DB) : Except GoError Task × DB :=
  match db.task.filter (fun r => r.id = id) with
  | [] => (.error (GoError.app { Code := ErrNotFound, Message := "", Err := some ErrTaskNotFound }), db)
  | [r] => (.ok (selectTask db r), db)
  | _ :: _ :: _ =>
    (.error (GoError.other "failed to execute query: pg: multiple rows in result set"), db)

/-- Go `func (ts *taskService) UpdateByID`:
`UPDATE task SET description = ?, status = ?, due_date = ? WHERE id = ?`. -/
def UpdateByID (id : Int) (task : Task) (db : DB) : Except GoError Unit × DB :=
  (.ok (),
    { db with
      task := db.task.map (fun r =>
        if r.id = id then
          { r with description := task.Description, status := task.Status,
                   due_date := task.DueDate }
        else r) })

/-- Go `func (ts *taskService) markOverdue`:
`UPDATE task SET status = overdue WHERE due_date < ?` with `time.Now()`; the comparison is
not true on a NULL `due_date`. -/
def markOverdue (now : Time) (db : DB) : Except GoError Unit × DB :=
  (.ok (),
    { db with
      task := db.task.map (fun r =>
        match r.due_date with
        | some d => if d < now then { r with status := StatusOverdue } else r
        | none => r) })

/-- Go `func (ts *taskService) List`: the sweep, then
`SELECT ... FROM task WHERE parent_id IS NULL`; `now` is the `time.Now()` of the sweep. -/
def List (now : Time) (db : DB) : Except GoError (List Task) × DB :=
  match markOverdue now db with
  | (.error err, db1) => (.error err, db1)
  | (.ok _, db1) =>
    (.ok ((db1.task.filter (fun r => r.parent_id = none)).map (selectTask db1)), db1)

/-- Go `func NewTaskService(db *pg.DB) *taskService`, as a `todo.TaskService`; `now` is what
`time.Now()` reads inside `List`. -/
def NewTaskService (now : Time) : TaskService DB where
  Create := Create
  GetByID := GetByID
  UpdateByID := UpdateByID
  List := List now

end postgres

end todo

namespace todo

/-! ## Sample stores and requests -/

/-- The empty database, as the migrations leave it. -/
def emptyDB : postgres.DB :=
  { task := [], nextID := 1 }

/-- A parent task (id 1) with one child (id 2), as `Test_taskService_UpdateByID` creates them. -/
def parentChildDB : postgres.DB :=
  { task := [{ id := 1, description := "parent task", status := StatusNew, due_date := none,
               parent_id := none },
             { id := 2, description := "child task", status := StatusNew, due_date := none,
               parent_id := some 1 }]
    nextID := 3 }

/-- Three levels: task 1, its subtask 2, and 3 a subtask of 2; all `new`. -/
def threeLevelDB : postgres.DB :=
  { task := [{ id := 1, description := "parent task", status := StatusNew, due_date := none,
               parent_id := none },
             { id := 2, description := "child task", status := StatusNew, due_date := none,
               parent_id := some 1 },
             { id := 3, description := "grandchild task", status := StatusNew, due_date := none,
               parent_id := some 2 }]
    nextID := 4 }

/-- One top-level task, completed, due at instant 5. -/
def dueDB : postgres.DB :=
  { task := [{ id := 1, description := "first task", status := StatusCompleted,
               due_date := some 5, parent_id := none }]
    nextID := 2 }

/-- The request body `{"status":"completed"}`. -/
def completeRequest : EditTaskRequest :=
  { Description := none, Status := some StatusCompleted, DueDate := none }

/-- The request body `{"status":"overdue"}`. -/
def overdueRequest : EditTaskRequest :=
  { Description := none, Status := some StatusOverdue, DueDate := none }

/-- The request body `{"description":""}`. -/
def emptyDescriptionRequest : EditTaskRequest :=
  { Description := some "", Status := none, DueDate := none }

/-- The request body `{"description":"renamed"}`. -/
def renameRequest : EditTaskRequest :=
  { Description := some "renamed", Status := none, DueDate := none }

/-- The request body `{"status":"done"}`, whose status is not a valid one. -/
def badStatusRequest : EditTaskRequest :=
  { Description := none, Status := some "done", DueDate := none }

/-- The add request `{"description":"pay rent","due_date":<instant 5>}`. -/
def dueAtFiveRequest : AddTaskRequest :=
  { Description := "pay rent", DueDate := some 5, ParentID := none }

/-- The fetched task with the fields present in the request overwritten. -/
def mergedTask (req : EditTaskRequest) (tt : Task) : Task :=
  { tt with
    Description := match req.Description with
      | some d => d
      | none => tt.Description
    Status := match req.Status with
      | some s => s
      | none => tt.Status
    DueDate := match req.DueDate with
      | some t => some t
      | none => tt.DueDate }

/-! ## Lemmas on the JSON round trip and the checks of `updateTaskHandler` -/

theorem decodeTask_marshalEditTaskRequest (req : EditTaskRequest) (tt : Task) :
    decodeTask (marshalEditTaskRequest req) tt = .ok (mergedTask req tt) := by
  obtain ⟨d, s, t⟩ := req
  cases tt
  cases d <;> cases s <;> cases t <;>
    simp [marshalEditTaskRequest, decodeTask, decodeMember, mergedTask]

theorem areAllSubtasksCompleted_eq_false_iff (subtasks : List Task) :
    http.areAllSubtasksCompleted subtasks = false
      ↔ ∃ t ∈ subtasks, t.Status ≠ StatusCompleted := by
  induction subtasks with
  | nil => simp [http.areAllSubtasksCompleted]
  | cons t rest ih =>
    by_cases h : t.Status = StatusCompleted
    · simp [http.areAllSubtasksCompleted, h, ih]
    · simp [http.areAllSubtasksCompleted, h]

theorem areAllSubtasksCompleted_eq_true_iff (subtasks : List Task) :
    http.areAllSubtasksCompleted subtasks = true
      ↔ ∀ t ∈ subtasks, t.Status = StatusCompleted := by
  induction subtasks with
  | nil => simp [http.areAllSubtasksCompleted]
  | cons t rest ih =>
    by_cases h : t.Status = StatusCompleted
    · simp [http.areAllSubtasksCompleted, h, ih]
    · simp [http.areAllSubtasksCompleted, h]

theorem IsValid_iff (s : status) :
    IsValid s = true ↔ s = "new" ∨ s = "in-progress" ∨ s = "completed" ∨ s = "overdue" := by
  simp [IsValid, availableStatuses]

/-- The status check at the head of `updateTaskHandler` passes exactly when the status is
absent or valid. -/
theorem status_check_passes (req : EditTaskRequest)
    (h : ∀ s, req.Status = some s → IsValid s = true) :
    req.Status.any (fun x => !IsValid x) = false := by
  cases hs : req.Status with
  | none => simp
  | some s => simp [h s hs]

/-! ## The subtask-completion gate of `updateTaskHandler` -/

/-- C1: in `updateTaskHandler`, for a fetched task `tt` and a request whose status is valid or
absent, with a store update that succeeds, the request is rejected with the `invalid` error
"all subtasks must be completed first" if and only if the requested status is `completed`,
`tt.ParentID` is nil and `areAllSubtasksCompleted tt.SubTasks` is false, which is to say some
element of `tt.SubTasks` has a status other than `completed`; a top-level task all of whose
subtasks are completed (in particular one with no subtasks) is allowed to complete. -/
theorem updateTaskHandler_gate_iff {σ : Type} (svc : TaskService σ) (id : Int)
    (req : EditTaskRequest) (st st1 : σ) (tt : Task)
    (hstatus : ∀ s, req.Status = some s → IsValid s = true)
    (hget : svc.GetByID id st = (.ok tt, st1))
    (hupdate : ∀ snapshot, (svc.UpdateByID id snapshot st1).1 = .ok ()) :
    ((http.updateTaskHandler svc id req st).1
        = .error (GoError.app
            { Code := "invalid", Message := "all subtasks must be completed first", Err := none })
      ↔ (req.Status = some "completed" ∧ tt.ParentID = none
          ∧ http.areAllSubtasksCompleted tt.SubTasks = false))
    ∧ (http.areAllSubtasksCompleted tt.SubTasks = false
      ↔ ∃ t ∈ tt.SubTasks, t.Status ≠ "completed")
    ∧ (req.Status = some "completed" → tt.ParentID = none
      → (∀ t ∈ tt.SubTasks, t.Status = "completed")
      → ∃ r, (http.updateTaskHandler svc id req st).1 = .ok r ∧ r.Status = "completed") := by
  have hcheck := status_check_passes req hstatus
  have hupd := hupdate (mergedTask req tt)
  refine ⟨?_, areAllSubtasksCompleted_eq_false_iff tt.SubTasks, ?_⟩
  · constructor
    · intro h
      by_contra hgate
      simp only [http.updateTaskHandler, hcheck, hget, StatusCompleted, hgate,
        decodeTask_marshalEditTaskRequest] at h
      revert h
      rcases hres : svc.UpdateByID id (mergedTask req tt) st1 with ⟨res, st2⟩
      rw [hres] at hupd
      simp only at hupd
      subst hupd
      simp
    · intro hgate
      simp only [http.updateTaskHandler, hcheck, hget, Bool.false_eq_true, if_false]
      rw [if_pos hgate]
  · intro hcompleted hparent hall
    have hnot : ¬ (req.Status = some StatusCompleted ∧ tt.ParentID = none
        ∧ http.areAllSubtasksCompleted tt.SubTasks = false) := by
      rintro ⟨_, _, hfalse⟩
      have := (areAllSubtasksCompleted_eq_true_iff tt.SubTasks).2 hall
      simp [this] at hfalse
    refine ⟨mergedTask req tt, ?_, ?_⟩
    · simp only [http.updateTaskHandler, hcheck, hget, hnot,
        decodeTask_marshalEditTaskRequest]
      rcases hres : svc.UpdateByID id (mergedTask req tt) st1 with ⟨res, st2⟩
      rw [hres] at hupd
      simp only at hupd
      subst hupd
      simp
    · simp [mergedTask, hcompleted]

/-- Witness of C1 on the store of `Test_taskService_UpdateByID`: completing the parent (id 1)
while its child is `new` is rejected. -/
theorem updateTaskHandler_gate_iff_witness :
    (http.updateTaskHandler (postgres.NewTaskService 0) 1 completeRequest parentChildDB).1
      = .error (GoError.app
          { Code := "invalid", Message := "all subtasks must be completed first", Err := none }) :=
  (updateTaskHandler_gate_iff (postgres.NewTaskService 0) 1 completeRequest parentChildDB
      parentChildDB
      (postgres.selectTask parentChildDB
        { id := 1, description := "parent task", status := StatusNew, due_date := none,
          parent_id := none })
      (by intro s hs; cases hs; decide) rfl (fun _ => rfl)).1.2
    ⟨rfl, rfl, by decide⟩

/-! ## Status validation in `updateTaskHandler` -/

/-- C6: `status.IsValid` is true exactly for `new`, `in-progress`, `completed` and `overdue`;
and an update request whose status is present and not valid fails with the `invalid` error
before any store call: over every service, with every call logged, the log and the store are
left as they were, whatever `GetByID` would have answered for the id. -/
theorem updateTaskHandler_invalid_status :
    (∀ s : status,
      IsValid s = true ↔ s = "new" ∨ s = "in-progress" ∨ s = "completed" ∨ s = "overdue")
    ∧ (∀ (σ : Type) (svc : TaskService σ) (id : Int) (req : EditTaskRequest) (st : σ)
        (log : List Call) (x : status),
        req.Status = some x → IsValid x = false →
        http.updateTaskHandler (traced svc) id req (st, log)
          = (.error (GoError.app
              { Code := "invalid"
                Message := "status must be one of: new, in-progress, completed, overdue"
                Err := none }), (st, log))) := by
  refine ⟨IsValid_iff, ?_⟩
  intro σ svc id req st log x hx hinvalid
  simp [http.updateTaskHandler, hx, hinvalid]

/-- Witness of C6: status `done` on the empty database, where id 7 does not exist
(`GetByID` alone reports `not_found`). -/
theorem updateTaskHandler_invalid_status_witness :
    (postgres.GetByID 7 emptyDB).1
        = .error (GoError.app { Code := "not_found", Message := "", Err := some "task not found" })
    ∧ http.updateTaskHandler (traced (postgres.NewTaskService 0)) 7 badStatusRequest (emptyDB, [])
        = (.error (GoError.app
            { Code := "invalid"
              Message := "status must be one of: new, in-progress, completed, overdue"
              Err := none }), (emptyDB, [])) :=
  ⟨rfl, updateTaskHandler_invalid_status.2 postgres.DB (postgres.NewTaskService 0) 7
    badStatusRequest emptyDB [] "done" rfl (by decide)⟩

/-! ## Partial merge in `updateTaskHandler` -/

/-- C3: for a fetched task `tt` and an accepted edit request, the snapshot `r` that is handed
to `UpdateByID` (the one store call after `GetByID`) and returned is `tt` with exactly the
fields present in the request overwritten: `id`, `parent_id` and `subtasks` are those of `tt`,
and each of `description`, `status`, `due_date` is the requested value when present and the
fetched value when absent. -/
theorem updateTaskHandler_merge {σ : Type} (svc : TaskService σ) (id : Int)
    (req : EditTaskRequest) (st st1 : σ) (log : List Call) (tt r : Task)
    (final : σ × List Call)
    (hget : svc.GetByID id st = (.ok tt, st1))
    (haccepted : http.updateTaskHandler (traced svc) id req (st, log) = (.ok r, final)) :
    final = ((svc.UpdateByID id r st1).2, log ++ [Call.GetByID id, Call.UpdateByID id r])
    ∧ r.ID = tt.ID ∧ r.ParentID = tt.ParentID ∧ r.SubTasks = tt.SubTasks
    ∧ (∀ d, req.Description = some d → r.Description = d)
    ∧ (req.Description = none → r.Description = tt.Description)
    ∧ (∀ s, req.Status = some s → r.Status = s)
    ∧ (req.Status = none → r.Status = tt.Status)
    ∧ (∀ t, req.DueDate = some t → r.DueDate = some t)
    ∧ (req.DueDate = none → r.DueDate = tt.DueDate) := by
  unfold http.updateTaskHandler at haccepted
  split at haccepted
  · simp at haccepted
  · simp only [traced, hget, decodeTask_marshalEditTaskRequest] at haccepted
    split at haccepted
    · simp at haccepted
    · rcases hres : (svc.UpdateByID id (mergedTask req tt) st1).1 with e | u
      · simp [hres] at haccepted
      · simp only [hres, Prod.mk.injEq, Except.ok.injEq] at haccepted
        obtain ⟨hr, hfinal⟩ := haccepted
        subst hr
        refine ⟨?_, rfl, rfl, rfl, ?_, ?_, ?_, ?_, ?_, ?_⟩
        · rw [← hfinal]; simp
        · intro d hd; simp [mergedTask, hd]
        · intro hd; simp [mergedTask, hd]
        · intro s hs; simp [mergedTask, hs]
        · intro hs; simp [mergedTask, hs]
        · intro t ht; simp [mergedTask, ht]
        · intro ht; simp [mergedTask, ht]

/-- Witness of C3: renaming task 2 of the parent and child store keeps its status and its
(absent) due date. -/
theorem updateTaskHandler_merge_witness :
    ∃ r final,
      http.updateTaskHandler (traced (postgres.NewTaskService 0)) 2 renameRequest
          (parentChildDB, []) = (.ok r, final)
      ∧ r.Description = "renamed" ∧ r.Status = "new" ∧ r.DueDate = none ∧ r.ID = 2 :=
  ⟨_, _, rfl,
    (updateTaskHandler_merge (postgres.NewTaskService 0) 2 renameRequest parentChildDB
      parentChildDB [] _ _ _ rfl rfl).2.2.2.2.1 "renamed" rfl,
    rfl, rfl, rfl⟩

/-! ## The overdue sweep of `List` -/

theorem markOverdue_forall₂ (now : Time) (rows : List postgres.Row) :
    List.Forall₂
      (fun r r1 : postgres.Row =>
        r1.id = r.id ∧ r1.description = r.description ∧ r1.due_date = r.due_date
        ∧ r1.parent_id = r.parent_id
        ∧ ((∃ d, r.due_date = some d ∧ d < now) → r1.status = "overdue")
        ∧ ((¬ ∃ d, r.due_date = some d ∧ d < now) → r1.status = r.status))
      rows
      (rows.map (fun r =>
        match r.due_date with
        | some d => if d < now then { r with status := StatusOverdue } else r
        | none => r)) := by
  induction rows with
  | nil => exact List.Forall₂.nil
  | cons r rest ih =>
    refine List.Forall₂.cons ?_ ih
    obtain ⟨id, description, st, due, parent⟩ := r
    rcases due with _ | d
    · simp
    · by_cases hlt : d < now <;> simp [hlt]

/-- The rows with a given id after the sweep are the swept rows with that id. -/
theorem filter_id_markOverdue (now : Time) (id : Int) (db : postgres.DB) :
    (postgres.markOverdue now db).2.task.filter (fun r => r.id = id)
      = (db.task.filter (fun r => r.id = id)).map (fun r =>
          match r.due_date with
          | some d => if d < now then { r with status := StatusOverdue } else r
          | none => r) := by
  simp only [postgres.markOverdue, List.filter_map]
  congr 1
  apply List.filter_congr
  intro r _
  obtain ⟨rid, description, st, due, parent⟩ := r
  rcases due with _ | d
  · simp
  · by_cases hlt : d < now <;> simp [hlt]

/-- C5: for every store state and time `now`, the store after `List` is the store after the
sweep `markOverdue`; row by row, the sweep keeps id, description, due date and parent, sets
the status to `overdue` when the due date is strictly before `now` (whatever the status was)
and keeps the status otherwise (no due date, or a due date not before `now`); and `GetByID`
after the sweep reports `overdue` for a task whose due date is before `now`. -/
theorem List_marks_overdue (now : Time) (db : postgres.DB) :
    (postgres.List now db).2 = (postgres.markOverdue now db).2
    ∧ List.Forall₂
        (fun r r1 : postgres.Row =>
          r1.id = r.id ∧ r1.description = r.description ∧ r1.due_date = r.due_date
          ∧ r1.parent_id = r.parent_id
          ∧ ((∃ d, r.due_date = some d ∧ d < now) → r1.status = "overdue")
          ∧ ((¬ ∃ d, r.due_date = some d ∧ d < now) → r1.status = r.status))
        db.task (postgres.List now db).2.task
    ∧ (∀ (id : Int) (t : Task) (d : Time),
        (postgres.GetByID id db).1 = .ok t → t.DueDate = some d → d < now →
        ∃ t1, (postgres.GetByID id (postgres.List now db).2).1 = .ok t1
          ∧ t1.Status = "overdue" ∧ t1.ID = t.ID) := by
  have hstate : (postgres.List now db).2 = (postgres.markOverdue now db).2 := rfl
  refine ⟨hstate, ?_, ?_⟩
  · rw [hstate]
    exact markOverdue_forall₂ now db.task
  · intro id t d hget hdue hlt
    rw [hstate]
    have hfilter := filter_id_markOverdue now id db
    unfold postgres.GetByID at hget ⊢
    rcases hrows : db.task.filter (fun r => r.id = id) with _ | ⟨r, _ | ⟨r2, rest⟩⟩
    · simp [hrows] at hget
    · rw [hrows] at hfilter hget
      simp only [Except.ok.injEq] at hget
      subst hget
      simp only [postgres.selectTask] at hdue
      rw [hfilter]
      simp [postgres.selectTask, hdue, hlt]
    · simp [hrows] at hget

/-- Witness of C5: a completed task due at 5 is `overdue` after a `List` at 6. -/
theorem List_marks_overdue_witness :
    ∃ t1, (postgres.GetByID 1 (postgres.List 6 dueDB).2).1 = .ok t1
      ∧ t1.Status = "overdue" ∧ t1.ID = 1 :=
  (List_marks_overdue 6 dueDB).2.2 1
    (postgres.selectTask dueDB
      { id := 1, description := "first task", status := StatusCompleted, due_date := some 5,
        parent_id := none })
    5 rfl rfl (by decide)

/-! ## Two successive `List` calls -/

/-- A second sweep changes nothing when every due date before its clock reading was already
before the clock reading of the first sweep. -/
theorem markOverdue_markOverdue (t1 t2 : Time) (db : postgres.DB)
    (hdue : ∀ r ∈ db.task, ∀ d, r.due_date = some d → d < t2 → d < t1) :
    (postgres.markOverdue t2 (postgres.markOverdue t1 db).2).2
      = (postgres.markOverdue t1 db).2 := by
  simp only [postgres.markOverdue, List.map_map]
  congr 1
  apply List.map_congr_left
  intro r hr
  have hr2 := hdue r hr
  obtain ⟨rid, description, st, due, parent⟩ := r
  rcases due with _ | d
  · simp
  · by_cases h1 : d < t1
    · by_cases h2 : d < t2 <;> simp [h1, h2]
    · have h2 : ¬ d < t2 := fun h => h1 (hr2 d rfl h)
      simp [h1, h2]

/-- C8, as the code has it: two successive `List` calls with clock readings `t1 ≤ t2` and no
write in between, where no task has a due date `d` with `t1 ≤ d < t2` (every due date before
`t2` is before `t1`; so in particular when `t1 = t2`): the second call returns the same tasks
as the first and leaves the store as the first call left it. -/
theorem List_twice (t1 t2 : Time) (db : postgres.DB) (_hclock : t1 ≤ t2)
    (hdue : ∀ r ∈ db.task, ∀ d, r.due_date = some d → d < t2 → d < t1) :
    postgres.List t2 (postgres.List t1 db).2 = postgres.List t1 db := by
  have hsweep := markOverdue_markOverdue t1 t2 db hdue
  have hlist : ∀ (t : Time) (s : postgres.DB),
      postgres.List t s
        = (.ok (((postgres.markOverdue t s).2.task.filter (fun r => r.parent_id = none)).map
            (postgres.selectTask (postgres.markOverdue t s).2)), (postgres.markOverdue t s).2) :=
    fun _ _ => rfl
  have hstate : (postgres.List t1 db).2 = (postgres.markOverdue t1 db).2 := rfl
  rw [hstate, hlist t2, hlist t1, hsweep]

/-- Witness of `List_twice`: the task due at 5, listed at 6 and again at 9. -/
theorem List_twice_witness :
    postgres.List 9 (postgres.List 6 dueDB).2 = postgres.List 6 dueDB :=
  List_twice 6 9 dueDB (by decide) (by decide)

/-- C8 fails as stated: with a task due at 5 and clock readings 5 ≤ 6, the first `List` returns
the task as `completed` and leaves it so, the second returns it as `overdue` and changes the
store. -/
theorem List_not_idempotent :
    (5 : Time) ≤ 6
    ∧ (postgres.List 5 dueDB).1
        = .ok [{ ID := 1, Description := "first task", Status := "completed",
                 DueDate := some 5, ParentID := none, SubTasks := [] }]
    ∧ (postgres.List 6 (postgres.List 5 dueDB).2).1
        = .ok [{ ID := 1, Description := "first task", Status := "overdue",
                 DueDate := some 5, ParentID := none, SubTasks := [] }]
    ∧ (postgres.List 6 (postgres.List 5 dueDB).2).1 ≠ (postgres.List 5 dueDB).1
    ∧ (postgres.List 6 (postgres.List 5 dueDB).2).2 ≠ (postgres.List 5 dueDB).2 := by
  refine ⟨by decide, rfl, rfl, ?_, by decide⟩
  intro h
  have h1 : (postgres.List 5 dueDB).1
      = .ok [{ ID := 1, Description := "first task", Status := "completed",
               DueDate := some 5, ParentID := none, SubTasks := [] }] := rfl
  have h2 : (postgres.List 6 (postgres.List 5 dueDB).2).1
      = .ok [{ ID := 1, Description := "first task", Status := "overdue",
               DueDate := some 5, ParentID := none, SubTasks := [] }] := rfl
  rw [h1, h2] at h
  simp at h

/-! ## Setting `overdue` through `updateTaskHandler` -/

/-- The rows with a given id after `UpdateByID` on that id. -/
theorem filter_id_UpdateByID (id : Int) (task : Task) (db : postgres.DB) :
    (postgres.UpdateByID id task db).2.task.filter (fun r => r.id = id)
      = (db.task.filter (fun r => r.id = id)).map (fun r =>
          { r with description := task.Description, status := task.Status,
                   due_date := task.DueDate }) := by
  simp only [postgres.UpdateByID, List.filter_map]
  induction db.task with
  | nil => rfl
  | cons r rest ih =>
    by_cases hid : r.id = id
    · simp [List.filter_cons, hid, ih]
    · simp [List.filter_cons, hid, ih]

/-- On the postgres store, `updateTaskHandler` on an existing task, past the gate, stores the
merged snapshot and returns it. -/
theorem updateTaskHandler_postgres_accepted (now : Time) (id : Int) (req : EditTaskRequest)
    (db : postgres.DB) (tt : Task)
    (hstatus : ∀ s, req.Status = some s → IsValid s = true)
    (hget : (postgres.GetByID id db).1 = .ok tt)
    (hgate : ¬ (req.Status = some StatusCompleted ∧ tt.ParentID = none
      ∧ http.areAllSubtasksCompleted tt.SubTasks = false)) :
    http.updateTaskHandler (postgres.NewTaskService now) id req db
      = (.ok (mergedTask req tt), (postgres.UpdateByID id (mergedTask req tt) db).2) := by
  have hcheck := status_check_passes req hstatus
  have hget2 : postgres.GetByID id db = (.ok tt, db) := by
    have hstate : (postgres.GetByID id db).2 = db := by
      unfold postgres.GetByID
      split <;> rfl
    exact Prod.ext hget hstate
  simp only [http.updateTaskHandler, hcheck, postgres.NewTaskService, hget2, hgate,
    decodeTask_marshalEditTaskRequest, Bool.false_eq_true, if_false]
  rfl

/-- C7, as the code has it: `overdue` is a status an update request can set. For every
existing task and every update request whose status field is `overdue`, `updateTaskHandler`
on the postgres store accepts the request, returns the task with status `overdue`, and
afterwards the row of the task is stored with status `overdue` (`GetByID` reports it). -/
theorem updateTaskHandler_sets_overdue (now : Time) (id : Int) (req : EditTaskRequest)
    (db : postgres.DB) (tt : Task)
    (hreq : req.Status = some "overdue")
    (hget : (postgres.GetByID id db).1 = .ok tt) :
    ∃ r, (http.updateTaskHandler (postgres.NewTaskService now) id req db).1 = .ok r
      ∧ r.Status = "overdue"
      ∧ (∀ row ∈ (http.updateTaskHandler (postgres.NewTaskService now) id req db).2.task,
          row.id = id → row.status = "overdue")
      ∧ (∃ t1, (postgres.GetByID id
            (http.updateTaskHandler (postgres.NewTaskService now) id req db).2).1 = .ok t1
          ∧ t1.Status = "overdue") := by
  have hstatus : ∀ s, req.Status = some s → IsValid s = true := by
    intro s hs
    rw [hreq] at hs
    cases hs
    decide
  have hgate : ¬ (req.Status = some StatusCompleted ∧ tt.ParentID = none
      ∧ http.areAllSubtasksCompleted tt.SubTasks = false) := by
    rintro ⟨h, _⟩
    rw [hreq] at h
    exact absurd h (by decide)
  have hmerged : (mergedTask req tt).Status = "overdue" := by simp [mergedTask, hreq]
  rw [updateTaskHandler_postgres_accepted now id req db tt hstatus hget hgate]
  refine ⟨mergedTask req tt, rfl, hmerged, ?_, ?_⟩
  · intro row hrow hid
    simp only [postgres.UpdateByID, List.mem_map] at hrow
    obtain ⟨r0, _, hr0⟩ := hrow
    by_cases h0 : r0.id = id
    · simp only [h0, if_true] at hr0
      rw [← hr0]
      exact hmerged
    · simp only [h0, if_false] at hr0
      rw [hr0] at h0
      exact absurd hid h0
  · have hfilter := filter_id_UpdateByID id (mergedTask req tt) db
    unfold postgres.GetByID at hget ⊢
    rcases hrows : db.task.filter (fun r => r.id = id) with _ | ⟨r, _ | ⟨r2, rest⟩⟩
    · simp [hrows] at hget
    · rw [hrows] at hfilter
      rw [hfilter]
      exact ⟨_, rfl, hmerged⟩
    · simp [hrows] at hget

/-- Witness of `updateTaskHandler_sets_overdue`: task 2 of the parent and child store. -/
theorem updateTaskHandler_sets_overdue_witness :
    ∃ r, (http.updateTaskHandler (postgres.NewTaskService 0) 2 overdueRequest parentChildDB).1
        = .ok r ∧ r.Status = "overdue" :=
  let ⟨r, h1, h2, _⟩ := updateTaskHandler_sets_overdue 0 2 overdueRequest parentChildDB
    (postgres.selectTask parentChildDB
      { id := 2, description := "child task", status := StatusNew, due_date := none,
        parent_id := some 1 })
    rfl rfl
  ⟨r, h1, h2⟩

/-- C7 fails as stated: the request `{"status":"overdue"}` on task 2 (status `new`, no due
date) is accepted and the row of task 2 is stored with status `overdue`. -/
theorem overdue_is_settable :
    http.updateTaskHandler (postgres.NewTaskService 0) 2 overdueRequest parentChildDB
      = (.ok { ID := 2, Description := "child task", Status := "overdue", DueDate := none,
               ParentID := none, SubTasks := [] },
         { task := [{ id := 1, description := "parent task", status := "new",
                      due_date := none, parent_id := none },
                    { id := 2, description := "child task", status := "overdue",
                      due_date := none, parent_id := some 1 }]
           nextID := 3 }) := rfl

/-! ## The due date check of `createTaskHandler` -/

/-- A due date strictly before `time.Now()` is rejected with the `invalid` error and no
service method is called. -/
theorem createTaskHandler_rejects_past_due {σ : Type} (svc : TaskService σ) (today d : Time)
    (req : AddTaskRequest) (st : σ) (log : List Call)
    (hdescription : req.Description ≠ "") (hdue : req.DueDate = some d) (hpast : d < today) :
    http.createTaskHandler (traced svc) today req (st, log)
      = (.error (GoError.app
          { Code := "invalid", Message := "due_date must be in the future", Err := none }),
         (st, log)) := by
  simp [http.createTaskHandler, http.ShouldBindJSON, hdescription, hdue, hpast]

/-- C2, at the boundary `due_date = now`: with `time.Now()` reading 5, the add request with
due date 5 is not rejected; `createTaskHandler` calls `TaskService.Create` (the one logged
call), the row is inserted, and the handler succeeds. -/
theorem createTaskHandler_due_now_accepted :
    http.createTaskHandler (traced (postgres.NewTaskService 5)) 5 dueAtFiveRequest (emptyDB, [])
      = (.ok dueAtFiveRequest,
         ({ task := [{ id := 1, description := "pay rent", status := "new", due_date := some 5,
                       parent_id := none }]
            nextID := 2 },
          [Call.Create dueAtFiveRequest])) := rfl

/-! ## The gate on a subtask that has subtasks -/

/-- The task that `GetByID` returns has a nil `ParentID`: the query does not select
`parent_id`. -/
theorem GetByID_ParentID (id : Int) (db : postgres.DB) (tt : Task)
    (hget : (postgres.GetByID id db).1 = .ok tt) : tt.ParentID = none := by
  unfold postgres.GetByID at hget
  split at hget
  · simp at hget
  · simp only [Except.ok.injEq] at hget
    rw [← hget]
    rfl
  · simp at hget

/-- C4, on the store with three levels: task 2 is stored with `parent_id = 1` and has the
subtask 3, which is `new`; `GetByID 2` returns it with `ParentID` nil, and the request
`{"status":"completed"}` on task 2 is rejected with "all subtasks must be completed first",
the store unchanged. -/
theorem updateTaskHandler_gate_on_subtask :
    { id := 2, description := "child task", status := "new", due_date := none,
      parent_id := some 1 } ∈ threeLevelDB.task
    ∧ (postgres.GetByID 2 threeLevelDB).1
        = .ok { ID := 2, Description := "child task", Status := "new", DueDate := none,
                ParentID := none,
                SubTasks := [{ ID := 3, Description := "grandchild task", Status := "new",
                               DueDate := none, ParentID := some 2, SubTasks := [] }] }
    ∧ http.updateTaskHandler (postgres.NewTaskService 0) 2 completeRequest threeLevelDB
        = (.error (GoError.app
            { Code := "invalid", Message := "all subtasks must be completed first",
              Err := none }), threeLevelDB) :=
  ⟨by decide, rfl, rfl⟩

/-! ## Descriptions of stored tasks -/

/-- The store after `createTaskHandler` is the store before, or the store after `Create` on a
request with a non-empty description. -/
theorem createTaskHandler_state {σ : Type} (svc : TaskService σ) (today : Time)
    (req : AddTaskRequest) (st : σ) :
    (http.createTaskHandler svc today req st).2 = st
    ∨ (req.Description ≠ ""
        ∧ (http.createTaskHandler svc today req st).2 = (svc.Create req st).2) := by
  unfold http.createTaskHandler http.ShouldBindJSON
  by_cases hdescription : req.Description = ""
  · left
    simp [hdescription]
  · simp only [hdescription, if_false]
    rcases hres : svc.Create req st with ⟨res, st1⟩
    rcases hdue : req.DueDate with _ | d
    · right
      cases res <;> exact ⟨hdescription, rfl⟩
    · by_cases hpast : d < today
      · left
        simp [hpast]
      · right
        simp only [hpast, if_false]
        cases res <;> exact ⟨hdescription, rfl⟩

/-- After `createTaskHandler` on the postgres store, accepted or not, every stored
description is non-empty if it was so before. -/
theorem createTaskHandler_keeps_descriptions (now today : Time) (req : AddTaskRequest)
    (db : postgres.DB) (hinv : ∀ r ∈ db.task, r.description ≠ "") :
    ∀ r ∈ (http.createTaskHandler (postgres.NewTaskService now) today req db).2.task,
      r.description ≠ "" := by
  have hcreate : ∀ r ∈ (postgres.Create req db).2.task,
      req.Description ≠ "" → r.description ≠ "" := by
    intro r hr hdescription
    unfold postgres.Create at hr
    split at hr
    · simp only [List.mem_append, List.mem_singleton] at hr
      rcases hr with hr | hr
      · exact hinv r hr
      · rw [hr]; exact hdescription
    · split at hr
      · simp only [List.mem_append, List.mem_singleton] at hr
        rcases hr with hr | hr
        · exact hinv r hr
        · rw [hr]; exact hdescription
      · exact hinv r hr
  intro r hr
  rcases createTaskHandler_state (postgres.NewTaskService now) today req db with h | ⟨hd, h⟩
  · rw [h] at hr
    exact hinv r hr
  · rw [h] at hr
    exact hcreate r hr hd

theorem GetByID_state (id : Int) (db : postgres.DB) : (postgres.GetByID id db).2 = db := by
  unfold postgres.GetByID
  split <;> rfl

theorem GetByID_Description (id : Int) (db : postgres.DB) (tt : Task)
    (hget : (postgres.GetByID id db).1 = .ok tt) :
    ∃ r ∈ db.task, tt.Description = r.description := by
  unfold postgres.GetByID at hget
  rcases hrows : db.task.filter (fun r => r.id = id) with _ | ⟨r, _ | ⟨r2, rest⟩⟩
  · simp [hrows] at hget
  · rw [hrows] at hget
    simp only [Except.ok.injEq] at hget
    have hmem : r ∈ db.task.filter (fun r => r.id = id) := by simp [hrows]
    exact ⟨r, (List.mem_filter.1 hmem).1, by rw [← hget]; rfl⟩
  · simp [hrows] at hget

/-- The store after `updateTaskHandler` on the postgres store is the store before, or the
store after `UpdateByID` with the merged snapshot of the fetched task. -/
theorem updateTaskHandler_postgres_state (now : Time) (id : Int) (req : EditTaskRequest)
    (db : postgres.DB) :
    (http.updateTaskHandler (postgres.NewTaskService now) id req db).2 = db
    ∨ ∃ tt, (postgres.GetByID id db).1 = .ok tt
        ∧ (http.updateTaskHandler (postgres.NewTaskService now) id req db).2
            = (postgres.UpdateByID id (mergedTask req tt) db).2 := by
  unfold http.updateTaskHandler
  split
  · left; rfl
  · simp only [postgres.NewTaskService]
    rcases hres : postgres.GetByID id db with ⟨res, st1⟩
    have hst : st1 = db := by
      have := GetByID_state id db
      rw [hres] at this
      exact this
    subst hst
    cases res with
    | error e => left; rfl
    | ok tt =>
      simp only [decodeTask_marshalEditTaskRequest]
      split
      · left; rfl
      · right
        exact ⟨tt, rfl, rfl⟩

/-- After `updateTaskHandler` on the postgres store with a request whose description is absent
or non-empty, every stored description is non-empty if it was so before. -/
theorem updateTaskHandler_keeps_descriptions (now : Time) (id : Int) (req : EditTaskRequest)
    (db : postgres.DB) (hinv : ∀ r ∈ db.task, r.description ≠ "")
    (hreq : req.Description ≠ some "") :
    ∀ r ∈ (http.updateTaskHandler (postgres.NewTaskService now) id req db).2.task,
      r.description ≠ "" := by
  intro r hr
  rcases updateTaskHandler_postgres_state now id req db with h | ⟨tt, hget, h⟩
  · rw [h] at hr
    exact hinv r hr
  · rw [h] at hr
    obtain ⟨r0, hr0, hdescription⟩ := GetByID_Description id db tt hget
    have hmerged : (mergedTask req tt).Description ≠ "" := by
      rcases hd : req.Description with _ | d
      · simp only [mergedTask, hd]
        rw [hdescription]
        exact hinv r0 hr0
      · simp only [mergedTask, hd]
        intro hempty
        rw [hempty] at hd
        exact hreq hd
    simp only [postgres.UpdateByID, List.mem_map] at hr
    obtain ⟨r1, hr1, heq⟩ := hr
    by_cases hid : r1.id = id
    · simp only [hid, if_true] at heq
      rw [← heq]
      exact hmerged
    · simp only [hid, if_false] at heq
      rw [← heq]
      exact hinv r1 hr1

/-- C10, on the update path: on the parent and child store, where every description is
non-empty, the request `{"description":""}` on task 2 is accepted and the row of task 2 is
stored with the empty description. -/
theorem updateTaskHandler_stores_empty_description :
    (∀ r ∈ parentChildDB.task, r.description ≠ "")
    ∧ http.updateTaskHandler (postgres.NewTaskService 0) 2 emptyDescriptionRequest parentChildDB
        = (.ok { ID := 2, Description := "", Status := "new", DueDate := none,
                 ParentID := none, SubTasks := [] },
           { task := [{ id := 1, description := "parent task", status := "new",
                        due_date := none, parent_id := none },
                      { id := 2, description := "", status := "new",
                        due_date := none, parent_id := some 1 }]
             nextID := 3 }) :=
  ⟨by decide, rfl⟩

end todo
